import Mathlib

/-!
Shallow embedding of the abstract-interpretation VM in
`src/analysis/vm.rs` (PowerPC 750CL symbolic execution core), together
with theorems settling the specification claims about it.

Machine integers (`u32`) are modelled as `Nat` with explicit reduction
modulo `2^32` wherever the Rust code performs wrapping arithmetic.
Registers are indexed by `Fin 32`, condition-register fields by `Fin 8`.
-/

/-- The `u32` modulus, `2^32`. -/
def W32 : Nat := 4294967296

/-- `u32::MAX`. -/
def u32max : Nat := 4294967295

/-- Rust `u32::wrapping_add`. -/
def wadd (a b : Nat) : Nat := (a + b) % W32

/-- Rust `u32::wrapping_sub` (for operands below `2^32`). -/
def wsub (a b : Nat) : Nat := (a + (W32 - b % W32)) % W32

/-- Two's-complement cast of a signed immediate to `u32` (`as u32`). -/
def toU32 (i : Int) : Nat := (i % (W32 : Int)).toNat

/-- Rust `u32::rotate_left` (rotate amount taken mod 32). -/
def rotl32 (x n : Nat) : Nat :=
  ((x <<< (n % 32)) ||| (x >>> (32 - n % 32))) % W32

/-- Rust `NonZeroU32::new`: `none` exactly when the argument is zero. -/
def nonZeroNew (n : Nat) : Option Nat := if n = 0 then none else some n

/-- Rust `NonZeroU32::checked_add`: `none` on `u32` overflow. -/
def nonZeroCheckedAdd (n k : Nat) : Option Nat :=
  if n + k ≤ u32max then some (n + k) else none

/-- Modelled from the spec: `SectionAddress` lives in `analysis/cfa.rs`,
which is not part of the analysed source; per §6 it is
`(section_index, u32 address)` with `offset(i32)` and `+ u32` arithmetic.
The Rust field `section` is named `sectionIdx` here. -/
structure SectionAddress where
  sectionIdx : Nat
  address : Nat
deriving DecidableEq, Repr

/-- Modelled from the spec: `SectionAddress + u32` (wrapping `u32` add on
the address, same section). -/
def SectionAddress.addU32 (sa : SectionAddress) (n : Nat) : SectionAddress :=
  ⟨sa.sectionIdx, wadd sa.address n⟩

/-- Modelled from the spec: `SectionAddress::offset(i32)` (wrapping signed
offset on the address, same section). -/
def SectionAddress.offset (sa : SectionAddress) (i : Int) : SectionAddress :=
  ⟨sa.sectionIdx, (((sa.address : Int) + i) % (W32 : Int)).toNat⟩

/-- Modelled from the spec: `RelocationTarget` is an opaque host variant
with at least an `Address(SectionAddress)` constructor; `External`
stands for any non-address constructor the host may use. -/
inductive RelocationTarget where
  | Address (address : SectionAddress)
  | External (id : Nat)
deriving DecidableEq, Repr

/-- Object kind, per §6 of the spec (`obj.kind`). -/
inductive ObjKind where
  | Executable
  | Relocatable
deriving DecidableEq, Repr

/-- Modelled from the spec: the host object interface of §6. The
relocation table, section lookup and per-section containment are opaque
host functions; `at_address` returns the index of the section containing
an absolute address (`none` models the `Err` case), and `contains sec a`
is `sections[sec].contains(a)`. -/
structure ObjInfo where
  kind : ObjKind
  reloc : SectionAddress → Option RelocationTarget
  at_address : Nat → Option Nat
  contains : Nat → Nat → Bool
  sda2_base : Option Nat := none
  sda_base : Option Nat := none

/-- Modelled from the spec: `relocation_target_for(obj, ins_addr, None)`
is the host's relocation-table lookup for the instruction's immediate
operand (`Result<Option<_>>` collapsed through `.ok().flatten()`). -/
def relocation_target_for (obj : ObjInfo) (ins_addr : SectionAddress) :
    Option RelocationTarget :=
  obj.reloc ins_addr

/-- Abstract register value (`GprValue` in `vm.rs`). `max_offset` of
`LoadIndexed` models Rust's `Option<NonZeroU32>` as `Option Nat`. -/
inductive GprValue where
  | Unknown
  | Constant (value : Nat)
  | Address (target : RelocationTarget)
  | ComparisonResult (crf : Nat)
  | Range (min max step : Nat)
  | LoadIndexed (address : RelocationTarget) (max_offset : Option Nat)
deriving DecidableEq, Repr

/-- A GPR entry: value plus the two audit addresses (`Gpr` in `vm.rs`). -/
structure Gpr where
  value : GprValue := .Unknown
  hi_addr : Option SectionAddress := none
  lo_addr : Option SectionAddress := none
deriving DecidableEq, Repr

/-- `Gpr::set_direct`: set the value and clear both audit addresses. -/
def Gpr.set_direct (value : GprValue) : Gpr :=
  { value := value, hi_addr := none, lo_addr := none }

/-- `Gpr::set_hi`: set the value as the high half produced at `addr`. -/
def Gpr.set_hi (value : GprValue) (addr : SectionAddress) : Gpr :=
  { value := value, hi_addr := some addr, lo_addr := none }

/-- `Gpr::set_lo`: set the value as the completed low half at `addr`,
inheriting `hi_addr` (and a pre-existing `lo_addr`) from `hi_gpr`. -/
def Gpr.set_lo (value : GprValue) (addr : SectionAddress) (hi_gpr : Gpr) : Gpr :=
  { value := value, hi_addr := hi_gpr.hi_addr,
    lo_addr := some (hi_gpr.lo_addr.getD addr) }

/-- A condition-register field (`Cr` in `vm.rs`). -/
structure Cr where
  left : GprValue := .Unknown
  right : GprValue := .Unknown
  signed : Bool := false
deriving DecidableEq, Repr

/-- The VM state (`VM` in `vm.rs`): 32 GPRs, 8 CR fields, CTR. -/
structure VM where
  gpr : Fin 32 → Gpr := fun _ => {}
  cr : Fin 8 → Cr := fun _ => {}
  ctr : GprValue := .Unknown

instance : DecidableEq VM := fun a b =>
  decidable_of_iff (a.gpr = b.gpr ∧ a.cr = b.cr ∧ a.ctr = b.ctr)
    (by cases a; cases b; simp)

/-- `VM::gpr_value`. -/
def VM.gpr_value (vm : VM) (reg : Fin 32) : GprValue := (vm.gpr reg).value

/-- Replace the full entry of one GPR (`self.gpr[i] = g`). -/
def VM.setGpr (vm : VM) (i : Fin 32) (g : Gpr) : VM :=
  { vm with gpr := fun j => if j = i then g else vm.gpr j }

/-- Replace only the value of one GPR (`self.gpr[i].value = x`),
keeping its audit addresses. -/
def VM.setGprValue (vm : VM) (i : Fin 32) (x : GprValue) : VM :=
  { vm with gpr := fun j => if j = i then { vm.gpr j with value := x } else vm.gpr j }

/-- Replace one CR field (`self.cr[i] = c`). -/
def VM.setCr (vm : VM) (i : Fin 8) (c : Cr) : VM :=
  { vm with cr := fun j => if j = i then c else vm.cr j }

/-- `section_address_for` from `vm.rs`: relocation lookup first, then
whole-executable section lookup, then current-section containment. -/
def section_address_for (obj : ObjInfo) (ins_addr : SectionAddress)
    (target_addr : Nat) : Option RelocationTarget :=
  match relocation_target_for obj ins_addr with
  | some target => some target
  | none =>
    if obj.kind = ObjKind.Executable then
      match obj.at_address target_addr with
      | some section_index =>
        some (RelocationTarget.Address ⟨section_index, target_addr⟩)
      | none => none
    else if obj.contains ins_addr.sectionIdx target_addr then
      some (RelocationTarget.Address ⟨ins_addr.sectionIdx, target_addr⟩)
    else none

/-- `Gpr::address`: the address view of a GPR entry. -/
def Gpr.address (g : Gpr) (obj : ObjInfo) (ins_addr : SectionAddress) :
    Option RelocationTarget :=
  match g.value with
  | .Constant value => section_address_for obj ins_addr value
  | .Address target => some target
  | _ => none

/-- `VM::new`: all registers unknown, CR fields default, CTR unknown. -/
def VM.new : VM := {}

/-- `VM::new_with_base`: fresh VM seeded with the SDA base pointers. -/
def VM.new_with_base (sda2_base sda_base : Option Nat) : VM :=
  let vm := VM.new
  let vm := match sda2_base with
    | some value => vm.setGprValue 2 (.Constant value)
    | none => vm
  match sda_base with
  | some value => vm.setGprValue 13 (.Constant value)
  | none => vm

/-- `VM::new_from_obj`. -/
def VM.new_from_obj (obj : ObjInfo) : VM :=
  VM.new_with_base obj.sda2_base obj.sda_base

/-- `VM::clone_for_link`: fresh VM preserving only the `r2`/`r13` values. -/
def VM.clone_for_link (vm : VM) : VM :=
  { gpr := fun i =>
      if i.val = 2 ∨ i.val = 13 then { value := (vm.gpr i).value } else {},
    cr := fun _ => {}, ctr := .Unknown }

/-- `VM::clone_for_return`: fresh VM preserving the values of the
dedicated registers `r1`/`r2`/`r13` and the full entries of the
non-volatile registers `r14..r31`. -/
def VM.clone_for_return (vm : VM) : VM :=
  { gpr := fun i =>
      if i.val = 1 ∨ i.val = 2 ∨ i.val = 13 then { value := (vm.gpr i).value }
      else if 14 ≤ i.val then vm.gpr i
      else {},
    cr := fun _ => {}, ctr := .Unknown }

/-- `VM::clone_all`: structural deep copy. -/
def VM.clone_all (vm : VM) : VM := vm

/-- Branch target classification (`BranchTarget` in `vm.rs`). -/
inductive BranchTarget where
  | Unknown
  | Return
  | Address (target : RelocationTarget)
  | JumpTable (address : RelocationTarget) (size : Option Nat)
deriving DecidableEq, Repr

/-- One fork of a branch (`Branch` in `vm.rs`); the boxed VM is inlined. -/
structure Branch where
  target : BranchTarget
  link : Bool
  vm : VM
deriving DecidableEq

/-- Result of one `step` (`StepResult` in `vm.rs`). -/
inductive StepResult where
  | Continue
  | LoadStore (address : RelocationTarget) (source : Gpr) (source_reg : Nat)
  | Illegal
  | Jump (target : BranchTarget)
  | Branch (branches : List Branch)
deriving DecidableEq

/-- The opcodes `vm.rs` inspects, plus the loads/stores enumerated by the
classification helpers; `OtherOp` stands for every remaining decodable
opcode (which falls through to the default write-back rule). -/
inductive Opcode where
  | Illegal
  | Add | Addis | Addi | Addic | Addic_ | Ori | Or
  | Cmp | Cmpi | Cmpl | Cmpli
  | Rlwinm | Rlwnm
  | B | Bc | Bcctr | Bclr
  | Lwzx | Mtspr | Mfspr | Rfi
  | Lbz | Lbzu | Lha | Lhau | Lhz | Lhzu | Lmw | Lwz | Lwzu
  | Lfd | Lfdu | Lfs | Lfsu
  | Stb | Stbu | Sth | Sthu | Stmw | Stw | Stwu
  | Stfd | Stfdu | Stfs | Stfsu
  | Lbzux | Lfdux | Lfsux | Lhaux | Lhzux | Lwzux
  | Stbux | Stfdux | Stfsux | Sthux | Stwux
  | OtherOp
deriving DecidableEq, Repr

/-- A decoded instruction: the external decoder's accessors of §6,
modelled as record fields. Register fields are 5-bit (`Fin 32`), the CR
field designator 3-bit (`Fin 8`), `field_BI` 5-bit. `branch_dest` models
the decoder's `branch_dest().unwrap()` for `b`/`bc` (always present
there), and `defs` the GPR registers reported as written. -/
structure Ins where
  op : Opcode
  field_rA : Fin 32 := 0
  field_rB : Fin 32 := 0
  field_rD : Fin 32 := 0
  field_rS : Fin 32 := 0
  field_simm : Int := 0
  field_uimm : Nat := 0
  field_SH : Nat := 0
  field_MB : Nat := 0
  field_ME : Nat := 0
  field_crfD : Fin 8 := 0
  field_L : Nat := 0
  field_BO : Nat := 0
  field_BI : Fin 32 := 0
  field_LK : Bool := false
  field_AA : Bool := false
  field_spr : Nat := 0
  branch_dest : Nat := 0
  defs : List (Fin 32) := []

/-- `is_load_op`: the integer load opcodes. -/
def is_load_op (op : Opcode) : Bool :=
  match op with
  | .Lbz | .Lbzu | .Lha | .Lhau | .Lhz | .Lhzu | .Lmw | .Lwz | .Lwzu => true
  | _ => false

/-- `is_loadf_op`: the float load opcodes. -/
def is_loadf_op (op : Opcode) : Bool :=
  match op with
  | .Lfd | .Lfdu | .Lfs | .Lfsu => true
  | _ => false

/-- `is_store_op`: the integer store opcodes. -/
def is_store_op (op : Opcode) : Bool :=
  match op with
  | .Stb | .Stbu | .Sth | .Sthu | .Stmw | .Stw | .Stwu => true
  | _ => false

/-- `is_storef_op`: the float store opcodes. -/
def is_storef_op (op : Opcode) : Bool :=
  match op with
  | .Stfd | .Stfdu | .Stfs | .Stfsu => true
  | _ => false

/-- `is_load_store_op`. -/
def is_load_store_op (op : Opcode) : Bool :=
  is_load_op op || is_loadf_op op || is_store_op op || is_storef_op op

/-- `is_update_op`: the update-form (`*u`/`*ux`) loads and stores. -/
def is_update_op (op : Opcode) : Bool :=
  match op with
  | .Lbzu | .Lbzux | .Lfdu | .Lfdux | .Lfsu | .Lfsux | .Lhau | .Lhaux
  | .Lhzu | .Lhzux | .Lwzu | .Lwzux
  | .Stbu | .Stbux | .Stfdu | .Stfdux | .Stfsu | .Stfsux | .Sthu | .Sthux
  | .Stwu | .Stwux => true
  | _ => false

/-- `mask_value`: the `rlwinm`/`rlwnm` mask from `MB`/`ME`
(bit 0 is the MSB). -/
def mask_value (b e : Nat) : Nat :=
  if b ≤ e then
    (List.range' b (e + 1 - b)).foldl (fun mask bit => mask ||| (1 <<< (31 - bit))) 0
  else if b = e + 1 then
    u32max
  else
    (List.range' (e + 1) (b - (e + 1))).foldl
      (fun mask bit => mask &&& (u32max ^^^ (1 <<< (31 - bit)))) u32max

/-- `split_values_by_crb`: given a CR bit and the tracked comparison
operands, the replacement values for the (false, true) branch sides. -/
def split_values_by_crb (crb : Nat) (left right : GprValue) :
    GprValue × GprValue :=
  match crb with
  | 0 =>
    match left, right with
    | .Range mn mx st, .Constant value =>
      (.Range (max mn value) (max mx value) st,
       .Range (min mn (wsub value 1)) (min mx (wsub value 1)) st)
    | _, .Constant value =>
      (.Range value u32max 1, .Range 0 (wsub value 1) 1)
    | _, _ => (left, left)
  | 1 =>
    match left, right with
    | .Range mn mx st, .Constant value =>
      (.Range (min mn value) (min mx value) st,
       .Range (max mn (wadd value 1)) (max mx (wadd value 1)) st)
    | _, .Constant value =>
      (.Range 0 value 1, .Range (wadd value 1) u32max 1)
    | _, _ => (left, left)
  | 2 =>
    match left, right with
    | .Constant l, .Constant r =>
      (if l = r then .Unknown else left, .Constant r)
    | _, .Constant value => (left, .Constant value)
    | _, _ => (left, left)
  | _ => (left, left)

/-- `VM::set_comparison_result`: replace the value of every GPR still
tagged `ComparisonResult crf`, keeping audit addresses. -/
def VM.set_comparison_result (vm : VM) (value : GprValue) (crf : Nat) : VM :=
  { vm with gpr := fun i =>
      if (vm.gpr i).value = .ComparisonResult crf then
        { vm.gpr i with value := value }
      else vm.gpr i }

/-- The abstract value of `add rD, rA, rB` from its operand values. -/
def addValue (left right : GprValue) : GprValue :=
  match left, right with
  | .Constant l, .Constant r => .Constant (wadd l r)
  | .Address (.Address l), .Constant r => .Address (.Address (l.addU32 r))
  | .Constant l, .Address (.Address r) => .Address (.Address (r.addU32 l))
  | _, _ => .Unknown

/-- The `Opcode::Add` arm of `step`. -/
def stepAdd (vm : VM) (ins : Ins) : VM × StepResult :=
  let left := (vm.gpr ins.field_rA).value
  let right := (vm.gpr ins.field_rB).value
  (vm.setGpr ins.field_rD (Gpr.set_direct (addValue left right)), .Continue)

/-- The abstract value of `addis` without a relocation: add the shifted
immediate to a constant, else unknown. -/
def addisValue (left : GprValue) (simm : Int) : GprValue :=
  match left with
  | .Constant v => .Constant (wadd v ((toU32 simm <<< 16) % W32))
  | _ => .Unknown

/-- The `Opcode::Addis` arm of `step`. -/
def stepAddis (vm : VM) (obj : ObjInfo) (ins_addr : SectionAddress)
    (ins : Ins) : VM × StepResult :=
  match relocation_target_for obj ins_addr with
  | some target =>
    -- debug_assert_eq!(ins.field_rA(), 0)
    (vm.setGpr ins.field_rD (Gpr.set_hi (.Address target) ins_addr), .Continue)
  | none =>
    let left := if ins.field_rA.val = 0 then GprValue.Constant 0
                else (vm.gpr ins.field_rA).value
    let value := addisValue left ins.field_simm
    if ins.field_rA.val = 0 then
      (vm.setGpr ins.field_rD (Gpr.set_hi value ins_addr), .Continue)
    else
      (vm.setGpr ins.field_rD (Gpr.set_direct value), .Continue)

/-- The abstract value of `addi`/`addic`/`addic.` without a relocation:
constants add with wrapping, addresses take a signed offset, anything
else becomes unknown. -/
def addiValue (left : GprValue) (simm : Int) : GprValue :=
  match left with
  | .Constant v => .Constant (wadd v (toU32 simm))
  | .Address (.Address address) => .Address (.Address (address.offset simm))
  | _ => .Unknown

/-- The `Opcode::Addi | Addic | Addic_` arm of `step`. -/
def stepAddi (vm : VM) (obj : ObjInfo) (ins_addr : SectionAddress)
    (ins : Ins) : VM × StepResult :=
  match relocation_target_for obj ins_addr with
  | some target =>
    (vm.setGpr ins.field_rD
      (Gpr.set_lo (.Address target) ins_addr (vm.gpr ins.field_rA)), .Continue)
  | none =>
    let left := if ins.field_rA.val = 0 ∧ ins.op = Opcode.Addi then GprValue.Constant 0
                else (vm.gpr ins.field_rA).value
    let value := addiValue left ins.field_simm
    if ins.field_rA.val = 0 then
      (vm.setGpr ins.field_rD (Gpr.set_direct value), .Continue)
    else
      (vm.setGpr ins.field_rD
        (Gpr.set_lo value ins_addr (vm.gpr ins.field_rA)), .Continue)

/-- The abstract value of `ori` without a relocation. -/
def oriValue (src : GprValue) (uimm : Nat) : GprValue :=
  match src with
  | .Constant v => .Constant (v ||| uimm)
  | _ => .Unknown

/-- The `Opcode::Ori` arm of `step`. -/
def stepOri (vm : VM) (obj : ObjInfo) (ins_addr : SectionAddress)
    (ins : Ins) : VM × StepResult :=
  match relocation_target_for obj ins_addr with
  | some target =>
    (vm.setGpr ins.field_rA
      (Gpr.set_lo (.Address target) ins_addr (vm.gpr ins.field_rS)), .Continue)
  | none =>
    let value := oriValue (vm.gpr ins.field_rS).value ins.field_uimm
    (vm.setGpr ins.field_rA
      (Gpr.set_lo value ins_addr (vm.gpr ins.field_rS)), .Continue)

/-- The abstract value of `or rA, rS, rB` when `rS ≠ rB`. -/
def orValue (left right : GprValue) : GprValue :=
  match left, right with
  | .Constant l, .Constant r => .Constant (l ||| r)
  | _, _ => .Unknown

/-- The `Opcode::Or` arm of `step`. -/
def stepOr (vm : VM) (ins : Ins) : VM × StepResult :=
  if ins.field_rS = ins.field_rB then
    -- Register copy
    (vm.setGpr ins.field_rA (vm.gpr ins.field_rS), .Continue)
  else
    let value := orValue (vm.gpr ins.field_rS).value (vm.gpr ins.field_rB).value
    (vm.setGpr ins.field_rA (Gpr.set_direct value), .Continue)

/-- The `Opcode::Cmp | Cmpi | Cmpl | Cmpli` arm of `step`. -/
def stepCmp (vm : VM) (ins : Ins) : VM × StepResult :=
  if ins.field_L = 0 then
    let left_reg := ins.field_rA
    let left := (vm.gpr left_reg).value
    let rs : GprValue × Bool := match ins.op with
      | .Cmp => ((vm.gpr ins.field_rB).value, true)
      | .Cmpl => ((vm.gpr ins.field_rB).value, false)
      | .Cmpi => (.Constant (toU32 ins.field_simm), true)
      | _ => (.Constant ins.field_uimm, false)
    let crf := ins.field_crfD
    let vm := vm.setCr crf { signed := rs.2, left := left, right := rs.1 }
    let vm := vm.setGprValue left_reg (.ComparisonResult crf.val)
    (vm, .Continue)
  else
    (vm, .Continue)

/-- The abstract value of `rlwinm`/`rlwnm` once the rotate amount is
known: rotate-and-mask constants and ranges, and synthesize a bounded
range out of anything else. -/
def rlwValue (shift mask : Nat) (src : GprValue) : GprValue :=
  match src with
  | .Constant v => .Constant (rotl32 v shift &&& mask)
  | .Range mn mx st =>
    .Range (rotl32 mn shift &&& mask) (rotl32 mx shift &&& mask) (rotl32 st shift)
  | _ => .Range 0 mask (rotl32 1 shift)

/-- The `Opcode::Rlwinm | Rlwnm` arm of `step`. -/
def stepRlw (vm : VM) (ins : Ins) : VM × StepResult :=
  let shiftOpt : Option Nat := match ins.op with
    | .Rlwinm => some ins.field_SH
    | _ =>
      match (vm.gpr ins.field_rB).value with
      | .Constant v => some v
      | _ => none
  let value := match shiftOpt with
    | some shift => rlwValue shift (mask_value ins.field_MB ins.field_ME)
                      (vm.gpr ins.field_rS).value
    | none => GprValue.Unknown
  (vm.setGpr ins.field_rA (Gpr.set_direct value), .Continue)

/-- The branch target computed by the `B | Bc | Bcctr | Bclr` arm. -/
def branchTargetOf (vm : VM) (obj : ObjInfo) (ins_addr : SectionAddress)
    (ins : Ins) : BranchTarget :=
  match ins.op with
  | .Bcctr =>
    match vm.ctr with
    | .Constant value =>
      match section_address_for obj ins_addr value with
      | some target => .Address target
      | none => .Unknown
    | .Address target => .Address target
    | .LoadIndexed address max_offset =>
      -- the link-bit guard avoids treating bctrl indirect calls as jump tables
      if !ins.field_LK then
        .JumpTable address (max_offset.bind (fun n => nonZeroCheckedAdd n 4))
      else .Unknown
    | _ => .Unknown
  | .Bclr => .Return
  | _ =>
    match section_address_for obj ins_addr ins.branch_dest with
    | some target => .Address target
    | none => .Unknown

/-- The `Opcode::B | Bc | Bcctr | Bclr` arm of `step`. -/
def stepBranch (vm : VM) (obj : ObjInfo) (ins_addr : SectionAddress)
    (ins : Ins) : VM × StepResult :=
  -- HACK for `bla 0x60` in __OSDBJump
  if ins.op = Opcode.B ∧ ins.field_LK ∧ ins.field_AA then
    (vm, .Jump .Unknown)
  else
    let branch_target := branchTargetOf vm obj ins_addr ins
    -- If branching with link, use function call semantics
    if ins.field_LK then
      (vm, .Branch [
        { target := .Address (.Address (ins_addr.addU32 4)), link := false,
          vm := vm.clone_for_return },
        { target := branch_target, link := true, vm := vm.clone_for_link }])
    -- Branch always
    else if ins.op = Opcode.B ∨ ins.field_BO &&& 20 = 20 then
      (vm, .Jump branch_target)
    -- Branch conditionally
    else
      let crf : Fin 8 := ⟨ins.field_BI.val >>> 2, by
        have h := ins.field_BI.isLt; omega⟩
      let crb := ins.field_BI.val &&& 3
      let fv := split_values_by_crb crb (vm.cr crf).left (vm.cr crf).right
      let vms :=
        if ins.field_BO &&& 30 = 4 then
          -- Branch if false
          ((vm.clone_all.set_comparison_result fv.2 crf.val),
           (vm.clone_all.set_comparison_result fv.1 crf.val))
        else if ins.field_BO &&& 30 = 12 then
          -- Branch if true
          ((vm.clone_all.set_comparison_result fv.1 crf.val),
           (vm.clone_all.set_comparison_result fv.2 crf.val))
        else (vm.clone_all, vm.clone_all)
      (vm, .Branch [
        { target := .Address (.Address (ins_addr.addU32 4)), link := false,
          vm := vms.1 },
        { target := branch_target, link := ins.field_LK, vm := vms.2 }])

/-- The abstract value of `lwzx` from the base address view and the
index value. -/
def lwzxValue (left : Option RelocationTarget) (right : GprValue) : GprValue :=
  match left, right with
  | some address, .Range _ mx _ =>
    if mx < u32max - 4 ∧ mx &&& 3 = 0 then .LoadIndexed address (nonZeroNew mx)
    else .LoadIndexed address none
  | some address, _ => .LoadIndexed address none
  | _, _ => .Unknown

/-- The `Opcode::Lwzx` arm of `step`. -/
def stepLwzx (vm : VM) (obj : ObjInfo) (ins_addr : SectionAddress)
    (ins : Ins) : VM × StepResult :=
  let left := (vm.gpr ins.field_rA).address obj ins_addr
  let right := (vm.gpr ins.field_rB).value
  (vm.setGpr ins.field_rD (Gpr.set_direct (lwzxValue left right)), .Continue)

/-- The `Opcode::Mtspr` arm of `step` (only CTR, SPR 9, is modelled). -/
def stepMtspr (vm : VM) (ins : Ins) : VM × StepResult :=
  if ins.field_spr = 9 then
    ({ vm with ctr := (vm.gpr ins.field_rS).value }, .Continue)
  else
    (vm, .Continue)

/-- The `Opcode::Mfspr` arm of `step`. -/
def stepMfspr (vm : VM) (ins : Ins) : VM × StepResult :=
  let value := if ins.field_spr = 9 then vm.ctr else GprValue.Unknown
  (vm.setGpr ins.field_rD (Gpr.set_direct value), .Continue)

/-- The effective-address computation of the load/store arm of `step`:
the base-register (`rA`) match, including the update-form write-back. -/
def loadStoreCore (vm : VM) (obj : ObjInfo) (ins_addr : SectionAddress)
    (ins : Ins) : VM × StepResult :=
  let source := ins.field_rA
  match (vm.gpr source).value with
  | .Address target =>
    let vm :=
      if is_update_op ins.op then
        vm.setGpr source (Gpr.set_lo (.Address target) ins_addr (vm.gpr source))
      else vm
    (vm, .LoadStore target (vm.gpr source) source.val)
  | .Constant base =>
    let address := wadd base (toU32 ins.field_simm)
    match section_address_for obj ins_addr address with
    | some target =>
      let vm :=
        if is_update_op ins.op then
          vm.setGpr source (Gpr.set_lo (.Address target) ins_addr (vm.gpr source))
        else vm
      (vm, .LoadStore target (vm.gpr source) source.val)
    | none => (vm, .Continue)
  | _ =>
    if is_update_op ins.op then
      (vm.setGpr source (Gpr.set_direct .Unknown), .Continue)
    else (vm, .Continue)

/-- The `op if is_load_store_op(op)` arm of `step`: the core
effective-address handling followed by the integer-load destination
clobber. -/
def stepLoadStore (vm : VM) (obj : ObjInfo) (ins_addr : SectionAddress)
    (ins : Ins) : VM × StepResult :=
  let vr := loadStoreCore vm obj ins_addr ins
  let vm := if is_load_op ins.op then
    vr.1.setGpr ins.field_rD (Gpr.set_direct .Unknown)
  else vr.1
  (vm, vr.2)

/-- The default write-back arm of `step`: every register the opcode
defines becomes unknown. -/
def stepDefault (vm : VM) (ins : Ins) : VM × StepResult :=
  (ins.defs.foldl (fun v r => v.setGpr r (Gpr.set_direct .Unknown)) vm, .Continue)

/-- The catch-all of the `step` dispatcher: load/store family or the
default write-back rule. -/
def stepRest (vm : VM) (obj : ObjInfo) (ins_addr : SectionAddress)
    (ins : Ins) : VM × StepResult :=
  if is_load_store_op ins.op then stepLoadStore vm obj ins_addr ins
  else stepDefault vm ins

/-- `VM::step`: the per-instruction transfer function. The Rust method
mutates `self` and returns a `StepResult`; here it returns the mutated
VM paired with the result. -/
def VM.step (vm : VM) (obj : ObjInfo) (ins_addr : SectionAddress)
    (ins : Ins) : VM × StepResult :=
  match ins.op with
  | .Illegal => (vm, .Illegal)
  | .Add => stepAdd vm ins
  | .Addis => stepAddis vm obj ins_addr ins
  | .Addi | .Addic | .Addic_ => stepAddi vm obj ins_addr ins
  | .Ori => stepOri vm obj ins_addr ins
  | .Or => stepOr vm ins
  | .Cmp | .Cmpi | .Cmpl | .Cmpli => stepCmp vm ins
  | .Rlwinm | .Rlwnm => stepRlw vm ins
  | .B | .Bc | .Bcctr | .Bclr => stepBranch vm obj ins_addr ins
  | .Lwzx => stepLwzx vm obj ins_addr ins
  | .Mtspr => stepMtspr vm ins
  | .Mfspr => stepMfspr vm ins
  | .Rfi => (vm, .Jump .Unknown)
  | _ => stepRest vm obj ins_addr ins

/-- The spec's description of the `rlwinm` mask, for comparison with the
source's `mask_value`: whether the MSB-numbered bit `i` is named by the
wrap-inclusive interval `(MB, ME)`. -/
def maskSpecBit (mb me i : Nat) : Bool :=
  if mb ≤ me then decide (mb ≤ i ∧ i ≤ me) else decide (i ≤ me ∨ mb ≤ i)

/-- Population count of a 32-bit value. -/
def popcount32 (m : Nat) : Nat := (List.range 32).countP (fun i => m.testBit i)

/-- `v` is a degraded variant of `w`: every GPR value is either unchanged
or `Unknown`, and the CR fields and CTR agree. -/
def DegradedVM (v w : VM) : Prop :=
  (∀ i, (v.gpr i).value = (w.gpr i).value ∨ (v.gpr i).value = .Unknown) ∧
  v.cr = w.cr ∧ v.ctr = w.ctr

/-- Pointwise Unknown-domination: wherever `w` has no information about
a GPR, neither does `v` (so no GPR of `v` is strictly more precise in
the flat lattice than the corresponding GPR of `w`). -/
def UnknownLE (v w : VM) : Prop :=
  ∀ j, (w.gpr j).value = .Unknown → (v.gpr j).value = .Unknown

/-- Unknown-domination lifted to the branch forks of a `StepResult`. -/
def BranchUnknownLE (s' s : StepResult) : Prop :=
  ∀ bs bs', s = .Branch bs → s' = .Branch bs' →
    bs'.length = bs.length ∧
    ∀ k (hk : k < bs.length) (hk' : k < bs'.length),
      UnknownLE (bs'.get ⟨k, hk'⟩).vm (bs.get ⟨k, hk⟩).vm

/-- A minimal executable host: no relocations, every address resolves to
section 0. -/
def hostObj : ObjInfo where
  kind := .Executable
  reloc := fun _ => none
  at_address := fun _ => some 0
  contains := fun _ _ => true

/-- A host that resolves nothing: relocatable object, no relocations, no
section containment. -/
def emptyObj : ObjInfo where
  kind := .Relocatable
  reloc := fun _ => none
  at_address := fun _ => none
  contains := fun _ _ => false

/-- A VM whose CTR holds a bounded jump-table seed. -/
def c1vm : VM := { VM.new with ctr := .LoadIndexed (.Address ⟨0, 256⟩) (some 28) }

/-- A conditional `bcctr` (branch-if-true on cr0.lt) without link. -/
def c1insCond : Ins := { op := .Bcctr, field_BO := 12, field_BI := 0, field_LK := false }

/-- A plain unconditional `bctr`. -/
def c1insBctr : Ins := { op := .Bcctr, field_BO := 20, field_LK := false }

/-- A VM with a fully populated `r1` entry (value and audit addresses)
and a populated `r14`. -/
def c2vm : VM :=
  (VM.new.setGpr 1 { value := .Constant 7, hi_addr := some ⟨0, 4⟩, lo_addr := some ⟨0, 8⟩
    }).setGpr 14 { value := .Constant 9, hi_addr := some ⟨0, 12⟩, lo_addr := none }

/-- A VM prepared for `lwzx`: `r6` holds an address, `r0` a bounded
4-aligned range with positive max, `r5` a range with max 0. -/
def c3vm : VM :=
  ((VM.new.setGpr 6 (Gpr.set_direct (.Address (.Address ⟨0, 100⟩)))).setGpr 0
    (Gpr.set_direct (.Range 0 28 4))).setGpr 5 (Gpr.set_direct (.Range 0 0 1))

/-- `lwzx r12, r6, r0`. -/
def c3insPos : Ins := { op := .Lwzx, field_rD := 12, field_rA := 6, field_rB := 0 }

/-- `lwzx r12, r6, r5`. -/
def c3insZero : Ins := { op := .Lwzx, field_rD := 12, field_rA := 6, field_rB := 5 }

/-- `cmplwi r0, 0x127`. -/
def c4insCmp : Ins :=
  { op := .Cmpli, field_crfD := 0, field_L := 0, field_rA := 0, field_uimm := 295 }

/-- `bgt` (branch-if-true on cr0.gt). -/
def c4insBgt : Ins :=
  { op := .Bc, field_BO := 12, field_BI := 1, branch_dest := 2148480280 }

/-- The VM after `cmplwi r0, 0x127` on a fresh VM. -/
def c4vm1 : VM := (VM.new.step hostObj ⟨0, 2148455512⟩ c4insCmp).1

/-- The synthetic `bla` (branch with both link and absolute bits). -/
def c6insBla : Ins := { op := .B, field_LK := true, field_AA := true }

/-- A plain `bl`. -/
def c6insBl : Ins := { op := .B, field_LK := true, field_AA := false, branch_dest := 512 }

/-- An instruction of an opcode the dispatcher does not model, defining `r3`. -/
def c8ins : Ins := { op := .OtherOp, defs := [3] }

/-- A VM prepared for the zero-max `lwzx`: `r6` holds an address and
`r0` holds `Range {0, 0, 1}`. -/
def c9vm : VM :=
  (VM.new.setGpr 6 (Gpr.set_direct (.Address (.Address ⟨0, 100⟩)))).setGpr 0
    (Gpr.set_direct (.Range 0 0 1))

/-- `lwzx r12, r6, r0`. -/
def c9ins : Ins := { op := .Lwzx, field_rD := 12, field_rA := 6, field_rB := 0 }

/-- A VM whose CTR holds an unbounded jump-table seed. -/
def c9vm2 : VM := { VM.new with ctr := .LoadIndexed (.Address ⟨0, 100⟩) none }

/-- A VM whose `r5` holds `Constant 100` with a set `hi_addr`. -/
def c10vm : VM :=
  VM.new.setGpr 5 { value := .Constant 100, hi_addr := some ⟨0, 4⟩, lo_addr := none }

/-- `lwzu r5, 4(r5)`: an update-form integer load whose destination
register equals its base register. -/
def c10insBad : Ins := { op := .Lwzu, field_rD := 5, field_rA := 5, field_simm := 4 }

/-- `stwu r3, 4(r5)`: an update-form store based on `r5`. -/
def c10insGood : Ins := { op := .Stwu, field_rS := 3, field_rA := 5, field_simm := 4 }

theorem VM.setGpr_self (vm : VM) (i : Fin 32) (g : Gpr) :
    (vm.setGpr i g).gpr i = g := by
  simp [VM.setGpr]

theorem VM.setGpr_ne (vm : VM) {i j : Fin 32} (g : Gpr) (h : j ≠ i) :
    (vm.setGpr i g).gpr j = vm.gpr j := by
  simp [VM.setGpr, h]

set_option maxRecDepth 8192 in
set_option maxHeartbeats 4000000 in
/-- C5: for all `MB`, `ME` in `0..32`, the `rlwinm`/`rlwnm` mask has
exactly the bits named by the wrap-inclusive interval set (numbered from
the MSB: `MB ≤ ME` gives bits `MB..=ME`; `MB = ME+1` gives all bits;
`MB > ME+1` gives all bits except `ME+1..MB-1`), and its popcount equals
the number of bits named by that interval. -/
theorem c5_mask_value_law :
    ∀ mb < 32, ∀ me < 32,
      (∀ i < 32, (mask_value mb me).testBit (31 - i) = maskSpecBit mb me i) ∧
      popcount32 (mask_value mb me) =
        (List.range 32).countP (fun i => maskSpecBit mb me i) := by
  decide

/-- Witness for C5 at `(MB, ME) = (27, 29)` and bit 28. -/
theorem c5_witness :
    27 < 32 ∧ 29 < 32 ∧ 28 < 32 ∧
    (mask_value 27 29).testBit (31 - 28) = maskSpecBit 27 29 28 ∧
    popcount32 (mask_value 27 29) =
      (List.range 32).countP (fun i => maskSpecBit 27 29 i) :=
  ⟨by decide, by decide, by decide,
   (c5_mask_value_law 27 (by decide) 29 (by decide)).1 28 (by decide),
   (c5_mask_value_law 27 (by decide) 29 (by decide)).2⟩

/-- C7: `step` is pure and deterministic: on equal VMs with the same
host object, instruction address and instruction, it produces equal
resulting VMs and equal step results. -/
theorem c7_step_deterministic (v₁ v₂ : VM) (obj : ObjInfo)
    (a : SectionAddress) (ins : Ins) (h : v₁ = v₂) :
    v₁.step obj a ins = v₂.step obj a ins := by
  rw [h]

/-- Witness for C7 on a fresh VM and an `add`. -/
theorem c7_witness :
    VM.new = VM.new ∧
    VM.new.step hostObj ⟨0, 0⟩ { op := .Add } =
      VM.new.step hostObj ⟨0, 0⟩ { op := .Add } :=
  ⟨rfl, c7_step_deterministic VM.new VM.new hostObj ⟨0, 0⟩ { op := .Add } rfl⟩

/-- C1 counterexample: a conditional `bcctr` (`BO = 12`) without link,
with CTR = `LoadIndexed`, yields a two-fork `Branch` (whose taken fork
carries the jump table as its target), not `Jump(JumpTable ...)` as the
claim states for every no-link `bcctr`. -/
theorem c1_counterexample :
    c1vm.ctr = .LoadIndexed (.Address ⟨0, 256⟩) (some 28) ∧
    c1insCond.op = .Bcctr ∧ c1insCond.field_LK = false ∧
    (c1vm.step hostObj ⟨0, 0⟩ c1insCond).2 = .Branch [
      { target := .Address (.Address ⟨0, 4⟩), link := false, vm := c1vm.clone_all },
      { target := .JumpTable (.Address ⟨0, 256⟩) (some 32), link := false,
        vm := c1vm.clone_all }] ∧
    (∀ t, (c1vm.step hostObj ⟨0, 0⟩ c1insCond).2 ≠ .Jump t) := by
  have hstep : (c1vm.step hostObj ⟨0, 0⟩ c1insCond).2 = .Branch [
      { target := .Address (.Address ⟨0, 4⟩), link := false, vm := c1vm.clone_all },
      { target := .JumpTable (.Address ⟨0, 256⟩) (some 32), link := false,
        vm := c1vm.clone_all }] := by decide
  refine ⟨rfl, rfl, rfl, hstep, ?_⟩
  intro t h
  rw [hstep] at h
  exact StepResult.noConfusion h

/-- C1 (amended): on a `bcctr` whose CTR is `LoadIndexed{address,
max_offset}` (with `max_offset + 4` not overflowing `u32`): if the link
bit is clear and the branch is unconditional (`BO & 0b10100 = 0b10100`,
as in `bctr`), the result is `Jump(JumpTable{address, size = max_offset
+ 4})`; if the link bit is set (`bctrl`), the result is a call fork
whose call target is `Unknown`, not a jump table. -/
theorem c1_bcctr_jump_table (vm : VM) (obj : ObjInfo) (a : SectionAddress)
    (ins : Ins) (hop : ins.op = .Bcctr) (addr : RelocationTarget)
    (mo : Option Nat) (hctr : vm.ctr = .LoadIndexed addr mo)
    (hmo : ∀ n, mo = some n → n + 4 ≤ u32max) :
    (ins.field_LK = false → ins.field_BO &&& 20 = 20 →
      vm.step obj a ins = (vm, .Jump (.JumpTable addr (mo.map (· + 4))))) ∧
    (ins.field_LK = true →
      vm.step obj a ins = (vm, .Branch [
        { target := .Address (.Address (a.addU32 4)), link := false,
          vm := vm.clone_for_return },
        { target := .Unknown, link := true, vm := vm.clone_for_link }])) := by
  have hmap : (mo.bind fun n => nonZeroCheckedAdd n 4) = mo.map (· + 4) := by
    cases mo with
    | none => rfl
    | some n =>
      have h4 := hmo n rfl
      simp [nonZeroCheckedAdd, h4]
  constructor
  · intro hLK hBO
    simp only [VM.step, hop, stepBranch, branchTargetOf, hctr, hLK, hBO, hmap]
    simp
  · intro hLK
    simp only [VM.step, hop, stepBranch, branchTargetOf, hctr, hLK, hmap]
    simp

/-- Witness for C1 on a plain `bctr` with CTR =
`LoadIndexed{0x100, max_offset = 28}`. -/
theorem c1_witness :
    c1vm.ctr = .LoadIndexed (.Address ⟨0, 256⟩) (some 28) ∧
    c1insBctr.op = .Bcctr ∧ c1insBctr.field_LK = false ∧
    c1insBctr.field_BO &&& 20 = 20 ∧
    c1vm.step hostObj ⟨0, 0⟩ c1insBctr =
      (c1vm, .Jump (.JumpTable (.Address ⟨0, 256⟩) (some 32))) :=
  ⟨rfl, rfl, rfl, by decide,
   (c1_bcctr_jump_table c1vm hostObj ⟨0, 0⟩ c1insBctr rfl (.Address ⟨0, 256⟩)
     (some 28) rfl (by intro n hn; injection hn with hn; subst hn; decide)).1
     rfl (by decide)⟩

/-- C2 counterexample: `clone_for_return` does not copy the audit
addresses of `r1` (nor `r2`/`r13`): with `r1 = (Constant 7, hi 4, lo 8)`
the clone's `r1` entry differs from the source's. -/
theorem c2_counterexample :
    (c2vm.gpr 1).hi_addr = some ⟨0, 4⟩ ∧ (c2vm.gpr 1).lo_addr = some ⟨0, 8⟩ ∧
    c2vm.clone_for_return.gpr 1 ≠ c2vm.gpr 1 ∧
    (c2vm.clone_for_return.gpr 1).hi_addr = none := by
  decide

/-- C2 (amended): `clone_for_return` is a fresh VM in which only the
values of `r1`, `r2`, `r13` are copied (their audit addresses are
cleared), the full entries of `r14..r31` are copied including audit
addresses, every other register is Unknown with cleared audit
addresses, and all CR fields and CTR are reset to their defaults. -/
theorem c2_clone_for_return (v : VM) :
    (∀ i : Fin 32, i.val = 1 ∨ i.val = 2 ∨ i.val = 13 →
      v.clone_for_return.gpr i =
        { value := (v.gpr i).value, hi_addr := none, lo_addr := none }) ∧
    (∀ i : Fin 32, 14 ≤ i.val → v.clone_for_return.gpr i = v.gpr i) ∧
    (∀ i : Fin 32, ¬(i.val = 1 ∨ i.val = 2 ∨ i.val = 13) → i.val < 14 →
      v.clone_for_return.gpr i =
        { value := .Unknown, hi_addr := none, lo_addr := none }) ∧
    (∀ f : Fin 8, v.clone_for_return.cr f = {}) ∧
    v.clone_for_return.ctr = .Unknown := by
  refine ⟨?_, ?_, ?_, fun f => rfl, rfl⟩
  · intro i h
    simp [VM.clone_for_return, h]
  · intro i h
    have h1 : ¬(i.val = 1 ∨ i.val = 2 ∨ i.val = 13) := by omega
    simp [VM.clone_for_return, h1, h]
  · intro i h1 h2
    have h3 : ¬(14 ≤ i.val) := by omega
    simp [VM.clone_for_return, h1, h3]

/-- Witness for C2 on `c2vm`, at `r1` and `r14`. -/
theorem c2_witness :
    ((1 : Fin 32).val = 1 ∨ (1 : Fin 32).val = 2 ∨ (1 : Fin 32).val = 13) ∧
    14 ≤ (14 : Fin 32).val ∧
    c2vm.clone_for_return.gpr 1 =
      { value := (c2vm.gpr 1).value, hi_addr := none, lo_addr := none } ∧
    c2vm.clone_for_return.gpr 14 = c2vm.gpr 14 :=
  ⟨by decide, by decide,
   (c2_clone_for_return c2vm).1 1 (by decide),
   (c2_clone_for_return c2vm).2.1 14 (by decide)⟩

theorem and_three_eq_mod_four (n : Nat) : n &&& 3 = n % 4 := by
  simpa using Nat.and_pow_two_sub_one_eq_mod n 2

/-- C3 counterexample: `lwzx` with an address-yielding `rA` and
`rB = Range{0, 0, 1}` (max 0 is 4-aligned and under the bound) sets
`max_offset = None`, not `max_offset = max = 0`. -/
theorem c3_counterexample :
    (c3vm.gpr 6).address hostObj ⟨0, 0⟩ = some (.Address ⟨0, 100⟩) ∧
    (c3vm.gpr 5).value = .Range 0 0 1 ∧
    (0 : Nat) < W32 - 4 ∧ (0 : Nat) % 4 = 0 ∧
    ((c3vm.step hostObj ⟨0, 0⟩ c3insZero).1.gpr 12).value ≠
      .LoadIndexed (.Address ⟨0, 100⟩) (some 0) ∧
    ((c3vm.step hostObj ⟨0, 0⟩ c3insZero).1.gpr 12).value =
      .LoadIndexed (.Address ⟨0, 100⟩) none := by
  decide

/-- C3 (amended): on `lwzx rD, rA, rB` where `rA`'s address-view yields
an address: if `rB` is `Range{min, max, step}` with `max < 2^32 - 4`,
`max` divisible by 4 and `max > 0`, then `rD` becomes
`LoadIndexed{address, max_offset = max}` with cleared audit addresses;
if `max = 0` the same arm applies but stores `max_offset = None`; if
`rB` has any non-Range shape, `rD` becomes `LoadIndexed{address,
max_offset = None}`; and if `rA` yields no address, `rD` becomes
`Unknown`. -/
theorem c3_lwzx_load_indexed (vm : VM) (obj : ObjInfo) (a : SectionAddress)
    (ins : Ins) (hop : ins.op = .Lwzx) :
    (∀ addr, (vm.gpr ins.field_rA).address obj a = some addr →
      (∀ mn mx st, (vm.gpr ins.field_rB).value = .Range mn mx st →
        mx < W32 - 4 → mx % 4 = 0 → 0 < mx →
        (vm.step obj a ins).1.gpr ins.field_rD =
          Gpr.set_direct (.LoadIndexed addr (some mx))) ∧
      (∀ mn st, (vm.gpr ins.field_rB).value = .Range mn 0 st →
        (vm.step obj a ins).1.gpr ins.field_rD =
          Gpr.set_direct (.LoadIndexed addr none)) ∧
      ((∀ mn mx st, (vm.gpr ins.field_rB).value ≠ .Range mn mx st) →
        (vm.step obj a ins).1.gpr ins.field_rD =
          Gpr.set_direct (.LoadIndexed addr none))) ∧
    ((vm.gpr ins.field_rA).address obj a = none →
      (vm.step obj a ins).1.gpr ins.field_rD = Gpr.set_direct .Unknown) := by
  have hstep : (vm.step obj a ins).1.gpr ins.field_rD =
      Gpr.set_direct (lwzxValue ((vm.gpr ins.field_rA).address obj a)
        (vm.gpr ins.field_rB).value) := by
    simp only [VM.step, hop, stepLwzx, VM.setGpr_self]
  constructor
  · intro addr ha
    refine ⟨?_, ?_, ?_⟩
    · intro mn mx st hb hlt hmod hpos
      have hlt' : mx < u32max - 4 := by
        have := and_three_eq_mod_four mx
        simp only [u32max, W32] at *
        omega
      have hand : mx &&& 3 = 0 := by rw [and_three_eq_mod_four]; exact hmod
      rw [hstep, ha, hb]
      simp [lwzxValue, hlt', hand, nonZeroNew, Nat.pos_iff_ne_zero.mp hpos]
    · intro mn st hb
      rw [hstep, ha, hb]
      simp [lwzxValue, nonZeroNew, u32max]
    · intro hb
      rw [hstep, ha]
      rcases hv : (vm.gpr ins.field_rB).value with _ | v | t | c | ⟨mn, mx, st⟩ | ⟨ad, mo⟩
      · rfl
      · rfl
      · rfl
      · rfl
      · exact absurd hv (hb mn mx st)
      · rfl
  · intro ha
    rw [hstep, ha]
    rcases (vm.gpr ins.field_rB).value with _ | v | t | c | ⟨mn, mx, st⟩ | ⟨ad, mo⟩ <;> rfl

/-- Witness for C3: `lwzx r12, r6, r0` with `r6` an address and
`r0 = Range{0, 28, 4}`. -/
theorem c3_witness :
    c3insPos.op = .Lwzx ∧
    (c3vm.gpr 6).address hostObj ⟨0, 0⟩ = some (.Address ⟨0, 100⟩) ∧
    (c3vm.gpr 0).value = .Range 0 28 4 ∧
    (28 : Nat) < W32 - 4 ∧ (28 : Nat) % 4 = 0 ∧ (0 : Nat) < 28 ∧
    (c3vm.step hostObj ⟨0, 0⟩ c3insPos).1.gpr 12 =
      Gpr.set_direct (.LoadIndexed (.Address ⟨0, 100⟩) (some 28)) :=
  ⟨rfl, by decide, by decide, by decide, by decide, by decide,
   ((c3_lwzx_load_indexed c3vm hostObj ⟨0, 0⟩ c3insPos rfl).1
     (.Address ⟨0, 100⟩) (by decide)).1 0 28 4 (by decide) (by decide)
     (by decide) (by decide)⟩

/-- C4: on a fresh VM, `cmplwi r0, 0x127` sets `cr0 = (Unknown,
Constant 295, unsigned)` and tags `gpr[0]` as `ComparisonResult 0`; a
following `bgt` forks into a not-taken branch whose `gpr[0]` becomes
`Range{0, 295, 1}` and a taken branch whose `gpr[0]` becomes
`Range{296, 2^32-1, 1}`, the refinement being applied to every GPR
still tagged `ComparisonResult 0`. -/
theorem c4_compare_branch_refinement :
    c4vm1.cr 0 = { left := .Unknown, right := .Constant 295, signed := false } ∧
    (c4vm1.gpr 0).value = .ComparisonResult 0 ∧
    (c4vm1.step hostObj ⟨0, 2148455516⟩ c4insBgt).2 = .Branch [
      { target := .Address (.Address ⟨0, 2148455520⟩), link := false,
        vm := c4vm1.clone_all.set_comparison_result (.Range 0 295 1) 0 },
      { target := .Address (.Address ⟨0, 2148480280⟩), link := false,
        vm := c4vm1.clone_all.set_comparison_result (.Range 296 u32max 1) 0 }] ∧
    (∀ b0 b1, (c4vm1.step hostObj ⟨0, 2148455516⟩ c4insBgt).2 = .Branch [b0, b1] →
      (b0.vm.gpr 0).value = .Range 0 295 1 ∧
      (b1.vm.gpr 0).value = .Range 296 u32max 1 ∧
      ∀ i, (c4vm1.gpr i).value = .ComparisonResult 0 →
        (b0.vm.gpr i).value = .Range 0 295 1 ∧
        (b1.vm.gpr i).value = .Range 296 u32max 1) := by
  refine ⟨by decide, by decide, by decide, ?_⟩
  intro b0 b1 h
  have hstep : (c4vm1.step hostObj ⟨0, 2148455516⟩ c4insBgt).2 = .Branch [
      { target := .Address (.Address ⟨0, 2148455520⟩), link := false,
        vm := c4vm1.clone_all.set_comparison_result (.Range 0 295 1) 0 },
      { target := .Address (.Address ⟨0, 2148480280⟩), link := false,
        vm := c4vm1.clone_all.set_comparison_result (.Range 296 u32max 1) 0 }] := by
    decide
  rw [hstep] at h
  injection h with h
  injection h with h0 h
  injection h with h1 h
  subst h0
  subst h1
  refine ⟨by decide, by decide, ?_⟩
  intro i hi
  constructor
  · show ((c4vm1.clone_all.set_comparison_result (.Range 0 295 1) 0).gpr i).value =
      .Range 0 295 1
    simp [VM.set_comparison_result, VM.clone_all, hi]
  · show ((c4vm1.clone_all.set_comparison_result (.Range 296 u32max 1) 0).gpr i).value =
      .Range 296 u32max 1
    simp [VM.set_comparison_result, VM.clone_all, hi]

/-- C6 counterexample: the synthetic `bla` (a `b` with both link and
absolute bits set) short-circuits to `Jump(Unknown)` and produces no
`Branch` fork at all, although its link bit is set. -/
theorem c6_counterexample :
    c6insBla.op = .B ∧ c6insBla.field_LK = true ∧
    (VM.new.step hostObj ⟨0, 0⟩ c6insBla).2 = .Jump .Unknown ∧
    ∀ bs, (VM.new.step hostObj ⟨0, 0⟩ c6insBla).2 ≠ .Branch bs := by
  have hstep : (VM.new.step hostObj ⟨0, 0⟩ c6insBla).2 = .Jump .Unknown := by decide
  refine ⟨rfl, rfl, hstep, ?_⟩
  intro bs h
  rw [hstep] at h
  exact StepResult.noConfusion h

/-- C6 (amended): every branch instruction with the link bit set —
except a `b` with both link and absolute bits set, which short-circuits
to `Jump(Unknown)` — yields a `Branch` with exactly two forks: first
the fallthrough `(Address(ins_addr + 4), link = false,
clone_for_return)`, second the call `(computed target, link = true,
clone_for_link)`. -/
theorem c6_function_call_fork (vm : VM) (obj : ObjInfo) (a : SectionAddress)
    (ins : Ins)
    (hop : ins.op = .B ∨ ins.op = .Bc ∨ ins.op = .Bcctr ∨ ins.op = .Bclr)
    (hLK : ins.field_LK = true)
    (hno : ¬(ins.op = .B ∧ ins.field_AA = true)) :
    vm.step obj a ins = (vm, .Branch [
      { target := .Address (.Address (a.addU32 4)), link := false,
        vm := vm.clone_for_return },
      { target := branchTargetOf vm obj a ins, link := true,
        vm := vm.clone_for_link }]) := by
  have harm : vm.step obj a ins = stepBranch vm obj a ins := by
    rcases hop with h | h | h | h <;> simp only [VM.step, h]
  rw [harm]
  simp only [stepBranch, hLK]
  rw [if_neg (by rintro ⟨hb, -, haa⟩; exact hno ⟨hb, haa⟩)]
  simp

/-- Witness for C6 on a plain `bl`. -/
theorem c6_witness :
    (c6insBl.op = .B ∨ c6insBl.op = .Bc ∨ c6insBl.op = .Bcctr ∨
      c6insBl.op = .Bclr) ∧
    c6insBl.field_LK = true ∧ ¬(c6insBl.op = .B ∧ c6insBl.field_AA = true) ∧
    VM.new.step hostObj ⟨0, 0⟩ c6insBl = (VM.new, .Branch [
      { target := .Address (.Address ⟨0, 4⟩), link := false,
        vm := VM.new.clone_for_return },
      { target := branchTargetOf VM.new hostObj ⟨0, 0⟩ c6insBl, link := true,
        vm := VM.new.clone_for_link }]) :=
  ⟨Or.inl rfl, rfl, by decide,
   c6_function_call_fork VM.new hostObj ⟨0, 0⟩ c6insBl (Or.inl rfl) rfl (by decide)⟩

/-- C9: `lwzx` with an address-yielding `rA` and `rB = Range` with
`max = 0` (4-aligned and under the bound) produces `LoadIndexed` with
`max_offset = None` — identical to the unbounded case — so a subsequent
`bctr` on that value yields `JumpTable` with `size = None` rather than
size 4. -/
theorem c9_lwzx_zero_range (vm : VM) (obj : ObjInfo) (a : SectionAddress)
    (ins : Ins) (hop : ins.op = .Lwzx) (addr : RelocationTarget)
    (ha : (vm.gpr ins.field_rA).address obj a = some addr)
    (mn st : Nat) (hb : (vm.gpr ins.field_rB).value = .Range mn 0 st) :
    ((vm.step obj a ins).1.gpr ins.field_rD).value = .LoadIndexed addr none ∧
    (vm.step obj a ins).2 = .Continue ∧
    ∀ (vm2 : VM) (ins2 : Ins), ins2.op = .Bcctr →
      vm2.ctr = .LoadIndexed addr none → ins2.field_LK = false →
      ins2.field_BO &&& 20 = 20 →
      vm2.step obj a ins2 = (vm2, .Jump (.JumpTable addr none)) := by
  refine ⟨?_, ?_, ?_⟩
  · simp only [VM.step, hop, stepLwzx, VM.setGpr_self, ha, hb]
    rfl
  · simp only [VM.step, hop, stepLwzx]
  · intro vm2 ins2 hop2 hctr2 hLK2 hBO2
    simp only [VM.step, hop2, stepBranch, branchTargetOf, hctr2, hLK2, hBO2]
    simp

/-- Witness for C9 on `lwzx r12, r6, r0` with `r0 = Range{0, 0, 1}`,
followed by `bctr`. -/
theorem c9_witness :
    c9ins.op = .Lwzx ∧
    (c9vm.gpr 6).address hostObj ⟨0, 0⟩ = some (.Address ⟨0, 100⟩) ∧
    (c9vm.gpr 0).value = .Range 0 0 1 ∧
    ((c9vm.step hostObj ⟨0, 0⟩ c9ins).1.gpr 12).value =
      .LoadIndexed (.Address ⟨0, 100⟩) none ∧
    c9vm2.step hostObj ⟨0, 0⟩ c1insBctr =
      (c9vm2, .Jump (.JumpTable (.Address ⟨0, 100⟩) none)) := by
  have h := c9_lwzx_zero_range c9vm hostObj ⟨0, 0⟩ c9ins rfl (.Address ⟨0, 100⟩)
    (by decide) 0 1 (by decide)
  exact ⟨rfl, by decide, by decide, h.1,
    h.2.2 c9vm2 c1insBctr rfl rfl rfl (by decide)⟩

theorem step_eq_stepLoadStore (vm : VM) (obj : ObjInfo) (a : SectionAddress)
    (ins : Ins) (hls : is_load_store_op ins.op = true) :
    vm.step obj a ins = stepLoadStore vm obj a ins := by
  cases hop : ins.op <;>
    simp_all [VM.step, stepRest, is_load_store_op, is_load_op, is_loadf_op,
      is_store_op, is_storef_op]

/-- C10 counterexample: `lwzu r5, 4(r5)` (an update-form integer load
whose destination equals its base) with `r5 = Constant 100` and an
unresolvable effective address still returns `Continue` without a
`LoadStore`, but clobbers `r5` to Unknown via the load's destination
write — the entry is not left unchanged. -/
theorem c10_counterexample :
    is_update_op c10insBad.op = true ∧ is_load_store_op c10insBad.op = true ∧
    (c10vm.gpr 5).value = .Constant 100 ∧
    section_address_for emptyObj ⟨0, 0⟩ (wadd 100 (toU32 4)) = none ∧
    (c10vm.step emptyObj ⟨0, 0⟩ c10insBad).2 = .Continue ∧
    (c10vm.step emptyObj ⟨0, 0⟩ c10insBad).1.gpr 5 ≠ c10vm.gpr 5 ∧
    ((c10vm.step emptyObj ⟨0, 0⟩ c10insBad).1.gpr 5).value = .Unknown := by
  decide

/-- C10 (amended): on an update-form load or store whose base `rA`
holds `Constant base`, when the host cannot resolve `base + simm`, the
step returns `Continue` without emitting `LoadStore`, and — provided
the instruction is not an integer load whose destination register
equals `rA` — it leaves `rA`'s entry completely unchanged, neither
advancing it to the incremented address nor downgrading it to
Unknown. -/
theorem c10_update_unresolved (vm : VM) (obj : ObjInfo) (a : SectionAddress)
    (ins : Ins) (hls : is_load_store_op ins.op = true)
    (_hup : is_update_op ins.op = true) (base : Nat)
    (hA : (vm.gpr ins.field_rA).value = .Constant base)
    (hres : section_address_for obj a (wadd base (toU32 ins.field_simm)) = none)
    (hrd : is_load_op ins.op = true → ins.field_rD ≠ ins.field_rA) :
    (vm.step obj a ins).2 = .Continue ∧
    (vm.step obj a ins).1.gpr ins.field_rA = vm.gpr ins.field_rA := by
  rw [step_eq_stepLoadStore vm obj a ins hls]
  simp only [stepLoadStore, loadStoreCore, hA, hres]
  constructor
  · cases hload : is_load_op ins.op <;> simp
  · cases hload : is_load_op ins.op with
    | false => simp
    | true =>
      simp only [if_pos rfl]
      exact VM.setGpr_ne vm (Gpr.set_direct .Unknown) (Ne.symm (hrd hload))

/-- Witness for C10 on `stwu r3, 4(r5)` with `r5 = Constant 100` and a
host that resolves nothing. -/
theorem c10_witness :
    is_load_store_op c10insGood.op = true ∧ is_update_op c10insGood.op = true ∧
    (c10vm.gpr 5).value = .Constant 100 ∧
    section_address_for emptyObj ⟨0, 0⟩ (wadd 100 (toU32 4)) = none ∧
    (c10vm.step emptyObj ⟨0, 0⟩ c10insGood).2 = .Continue ∧
    (c10vm.step emptyObj ⟨0, 0⟩ c10insGood).1.gpr 5 = c10vm.gpr 5 :=
  ⟨rfl, rfl, rfl, by decide, (c10_update_unresolved c10vm emptyObj ⟨0, 0⟩
    c10insGood rfl rfl 100 rfl (by decide) (by decide)).1,
   (c10_update_unresolved c10vm emptyObj ⟨0, 0⟩ c10insGood rfl rfl 100 rfl
    (by decide) (by decide)).2⟩

theorem unknownLE_of_degraded {v w : VM} (h : DegradedVM v w) : UnknownLE v w := by
  intro j hj
  rcases h.1 j with he | hu
  · rw [he]; exact hj
  · exact hu

theorem degraded_setGprValue_unknown (w : VM) (r : Fin 32) :
    DegradedVM (w.setGprValue r .Unknown) w := by
  refine ⟨?_, rfl, rfl⟩
  intro i
  by_cases hir : i = r
  · subst hir; right; simp [VM.setGprValue]
  · left; simp [VM.setGprValue, hir]

theorem deg_unknown {x' x : GprValue} (h : x' = x ∨ x' = .Unknown)
    (hx : x = .Unknown) : x' = .Unknown := by
  rcases h with rfl | rfl
  · exact hx
  · rfl

theorem unknownLE_setGpr {v w : VM} (hvw : UnknownLE v w) (i : Fin 32)
    {g' g : Gpr} (hg : g.value = .Unknown → g'.value = .Unknown) :
    UnknownLE (v.setGpr i g') (w.setGpr i g) := by
  intro j hj
  by_cases hji : j = i
  · subst hji
    rw [VM.setGpr_self] at hj ⊢
    exact hg hj
  · rw [VM.setGpr_ne w g hji] at hj
    rw [VM.setGpr_ne v g' hji]
    exact hvw j hj

theorem VM.setGprValue_self_value (vm : VM) (i : Fin 32) (x : GprValue) :
    ((vm.setGprValue i x).gpr i).value = x := by
  simp [VM.setGprValue]

theorem VM.setGprValue_ne (vm : VM) {i j : Fin 32} (x : GprValue) (h : j ≠ i) :
    (vm.setGprValue i x).gpr j = vm.gpr j := by
  simp [VM.setGprValue, h]

theorem unknownLE_setGprValue {v w : VM} (hvw : UnknownLE v w) (i : Fin 32)
    {x' x : GprValue} (hx : x = .Unknown → x' = .Unknown) :
    UnknownLE (v.setGprValue i x') (w.setGprValue i x) := by
  intro j hj
  by_cases hji : j = i
  · subst hji
    rw [VM.setGprValue_self_value] at hj ⊢
    exact hx hj
  · rw [VM.setGprValue_ne w x hji] at hj
    rw [VM.setGprValue_ne v x' hji]
    exact hvw j hj

theorem addValue_unknown_left (r : GprValue) : addValue .Unknown r = .Unknown := by
  rcases r with _ | v | (sa | ex) | c | ⟨mn, mx, st⟩ | ⟨ad, mo⟩ <;> rfl

theorem addValue_unknown_right (l : GprValue) : addValue l .Unknown = .Unknown := by
  rcases l with _ | v | (sa | ex) | c | ⟨mn, mx, st⟩ | ⟨ad, mo⟩ <;> rfl

theorem addValue_deg {l' l r' r : GprValue} (hl : l' = l ∨ l' = .Unknown)
    (hr : r' = r ∨ r' = .Unknown) :
    addValue l' r' = addValue l r ∨ addValue l' r' = .Unknown := by
  rcases hl with rfl | rfl
  · rcases hr with rfl | rfl
    · exact Or.inl rfl
    · exact Or.inr (addValue_unknown_right l')
  · exact Or.inr (addValue_unknown_left r')

theorem addisValue_deg {l' l : GprValue} (simm : Int) (h : l' = l ∨ l' = .Unknown) :
    addisValue l' simm = addisValue l simm ∨ addisValue l' simm = .Unknown := by
  rcases h with rfl | rfl
  · exact Or.inl rfl
  · exact Or.inr rfl

theorem addiValue_deg {l' l : GprValue} (simm : Int) (h : l' = l ∨ l' = .Unknown) :
    addiValue l' simm = addiValue l simm ∨ addiValue l' simm = .Unknown := by
  rcases h with rfl | rfl
  · exact Or.inl rfl
  · exact Or.inr rfl

theorem oriValue_deg {l' l : GprValue} (uimm : Nat) (h : l' = l ∨ l' = .Unknown) :
    oriValue l' uimm = oriValue l uimm ∨ oriValue l' uimm = .Unknown := by
  rcases h with rfl | rfl
  · exact Or.inl rfl
  · exact Or.inr rfl

theorem orValue_unknown_right (l : GprValue) : orValue l .Unknown = .Unknown := by
  rcases l with _ | v | (sa | ex) | c | ⟨mn, mx, st⟩ | ⟨ad, mo⟩ <;> rfl

theorem orValue_deg {l' l r' r : GprValue} (hl : l' = l ∨ l' = .Unknown)
    (hr : r' = r ∨ r' = .Unknown) :
    orValue l' r' = orValue l r ∨ orValue l' r' = .Unknown := by
  rcases hl with rfl | rfl
  · rcases hr with rfl | rfl
    · exact Or.inl rfl
    · exact Or.inr (orValue_unknown_right l')
  · exact Or.inr rfl

theorem rlwValue_ne_unknown (sh m : Nat) (src : GprValue) :
    rlwValue sh m src ≠ .Unknown := by
  rcases src with _ | v | t | c | ⟨mn, mx, st⟩ | ⟨ad, mo⟩ <;> simp [rlwValue]

theorem lwzxValue_none (r : GprValue) : lwzxValue none r = .Unknown := by
  rcases r with _ | v | t | c | ⟨mn, mx, st⟩ | ⟨ad, mo⟩ <;> rfl

theorem lwzxValue_some_ne (t : RelocationTarget) (r : GprValue) :
    lwzxValue (some t) r ≠ .Unknown := by
  rcases r with _ | v | tt | c | ⟨mn, mx, st⟩ | ⟨ad, mo⟩ <;> simp [lwzxValue]
  split <;> simp

theorem Gpr.address_congr {g' g : Gpr} (obj : ObjInfo) (a : SectionAddress)
    (h : g'.value = g.value) : g'.address obj a = g.address obj a := by
  unfold Gpr.address
  rw [h]

theorem Gpr.address_unknown {g : Gpr} (obj : ObjInfo) (a : SectionAddress)
    (h : g.value = .Unknown) : g.address obj a = none := by
  unfold Gpr.address
  rw [h]

theorem clone_for_return_deg {v w : VM} (h : DegradedVM v w) :
    UnknownLE v.clone_for_return w.clone_for_return := by
  intro j hj
  simp only [VM.clone_for_return] at hj ⊢
  by_cases h1 : j.val = 1 ∨ j.val = 2 ∨ j.val = 13
  · simp only [if_pos h1] at hj ⊢
    exact deg_unknown (h.1 j) hj
  · simp only [if_neg h1] at hj ⊢
    by_cases h2 : 14 ≤ j.val
    · simp only [if_pos h2] at hj ⊢
      exact deg_unknown (h.1 j) hj
    · simp only [if_neg h2] at hj ⊢

theorem clone_for_link_deg {v w : VM} (h : DegradedVM v w) :
    UnknownLE v.clone_for_link w.clone_for_link := by
  intro j hj
  simp only [VM.clone_for_link] at hj ⊢
  by_cases h1 : j.val = 2 ∨ j.val = 13
  · simp only [if_pos h1] at hj ⊢
    exact deg_unknown (h.1 j) hj
  · simp only [if_neg h1] at hj ⊢

theorem set_comparison_result_deg {v w : VM}
    (hgpr : ∀ i, (v.gpr i).value = (w.gpr i).value ∨ (v.gpr i).value = .Unknown)
    (x : GprValue) (c : Nat) :
    UnknownLE (v.set_comparison_result x c) (w.set_comparison_result x c) := by
  intro j hj
  simp only [VM.set_comparison_result] at hj ⊢
  by_cases hw : (w.gpr j).value = .ComparisonResult c
  · simp only [if_pos hw] at hj
    rcases hgpr j with he | hu
    · rw [he, if_pos hw]
      exact hj
    · rw [if_neg (by rw [hu]; exact fun hc => GprValue.noConfusion hc)]
      exact hu
  · simp only [if_neg hw] at hj
    rcases hgpr j with he | hu
    · rw [if_neg (by rw [he]; exact hw), he]
      exact hj
    · rw [if_neg (by rw [hu]; exact fun hc => GprValue.noConfusion hc)]
      exact hu

theorem foldl_unknown_deg (l : List (Fin 32)) {v w : VM} (hvw : UnknownLE v w) :
    UnknownLE
      (l.foldl (fun x r => x.setGpr r (Gpr.set_direct .Unknown)) v)
      (l.foldl (fun x r => x.setGpr r (Gpr.set_direct .Unknown)) w) := by
  induction l generalizing v w with
  | nil => exact hvw
  | cons head tail ih =>
    exact ih (unknownLE_setGpr hvw head (fun _ => rfl))

theorem branchUnknownLE_not_branch {s' s : StepResult}
    (h : ∀ bs, s ≠ .Branch bs) : BranchUnknownLE s' s := by
  intro bs bs' hs _
  exact absurd hs (h bs)

theorem stepAdd_deg {v w : VM} (h : DegradedVM v w) (ins : Ins) :
    UnknownLE (stepAdd v ins).1 (stepAdd w ins).1 ∧
    BranchUnknownLE (stepAdd v ins).2 (stepAdd w ins).2 := by
  constructor
  · exact unknownLE_setGpr (unknownLE_of_degraded h) _
      (fun hu => deg_unknown (addValue_deg (h.1 _) (h.1 _)) hu)
  · exact branchUnknownLE_not_branch (fun bs hs => StepResult.noConfusion hs)

theorem stepAddis_deg {v w : VM} (h : DegradedVM v w) (obj : ObjInfo)
    (a : SectionAddress) (ins : Ins) :
    UnknownLE (stepAddis v obj a ins).1 (stepAddis w obj a ins).1 ∧
    BranchUnknownLE (stepAddis v obj a ins).2 (stepAddis w obj a ins).2 := by
  have hvw := unknownLE_of_degraded h
  constructor
  · simp only [stepAddis]
    cases hrel : relocation_target_for obj a with
    | some target =>
      exact unknownLE_setGpr hvw _ (fun hu => absurd hu (by simp [Gpr.set_hi]))
    | none =>
      by_cases h0 : ins.field_rA.val = 0
      · simp only [if_pos h0]
        exact unknownLE_setGpr hvw _ (fun hu => hu)
      · simp only [if_neg h0]
        exact unknownLE_setGpr hvw _
          (fun hu => deg_unknown (addisValue_deg ins.field_simm (h.1 _)) hu)
  · refine branchUnknownLE_not_branch (fun bs hs => ?_)
    simp only [stepAddis] at hs
    cases hrel : relocation_target_for obj a with
    | some target =>
      rw [hrel] at hs
      exact StepResult.noConfusion hs
    | none =>
      rw [hrel] at hs
      by_cases h0 : ins.field_rA.val = 0
      · rw [if_pos h0] at hs
        exact StepResult.noConfusion hs
      · rw [if_neg h0] at hs
        exact StepResult.noConfusion hs

theorem stepAddi_deg {v w : VM} (h : DegradedVM v w) (obj : ObjInfo)
    (a : SectionAddress) (ins : Ins) :
    UnknownLE (stepAddi v obj a ins).1 (stepAddi w obj a ins).1 ∧
    BranchUnknownLE (stepAddi v obj a ins).2 (stepAddi w obj a ins).2 := by
  have hvw := unknownLE_of_degraded h
  constructor
  · simp only [stepAddi]
    cases hrel : relocation_target_for obj a with
    | some target =>
      exact unknownLE_setGpr hvw _ (fun hu => absurd hu (by simp [Gpr.set_lo]))
    | none =>
      by_cases hca : ins.field_rA.val = 0 ∧ ins.op = Opcode.Addi
      · simp only [if_pos hca]
        by_cases h0 : ins.field_rA.val = 0
        · simp only [if_pos h0]
          exact unknownLE_setGpr hvw _ (fun hu => hu)
        · simp only [if_neg h0]
          exact unknownLE_setGpr hvw _ (fun hu => hu)
      · simp only [if_neg hca]
        by_cases h0 : ins.field_rA.val = 0
        · simp only [if_pos h0]
          exact unknownLE_setGpr hvw _
            (fun hu => deg_unknown (addiValue_deg ins.field_simm (h.1 _)) hu)
        · simp only [if_neg h0]
          exact unknownLE_setGpr hvw _
            (fun hu => deg_unknown (addiValue_deg ins.field_simm (h.1 _)) hu)
  · refine branchUnknownLE_not_branch (fun bs hs => ?_)
    simp only [stepAddi] at hs
    cases hrel : relocation_target_for obj a with
    | some target =>
      rw [hrel] at hs
      exact StepResult.noConfusion hs
    | none =>
      rw [hrel] at hs
      by_cases h0 : ins.field_rA.val = 0
      · rw [if_pos h0] at hs
        exact StepResult.noConfusion hs
      · rw [if_neg h0] at hs
        exact StepResult.noConfusion hs

theorem stepOri_deg {v w : VM} (h : DegradedVM v w) (obj : ObjInfo)
    (a : SectionAddress) (ins : Ins) :
    UnknownLE (stepOri v obj a ins).1 (stepOri w obj a ins).1 ∧
    BranchUnknownLE (stepOri v obj a ins).2 (stepOri w obj a ins).2 := by
  have hvw := unknownLE_of_degraded h
  constructor
  · simp only [stepOri]
    cases hrel : relocation_target_for obj a with
    | some target =>
      exact unknownLE_setGpr hvw _ (fun hu => absurd hu (by simp [Gpr.set_lo]))
    | none =>
      exact unknownLE_setGpr hvw _
        (fun hu => deg_unknown (oriValue_deg ins.field_uimm (h.1 _)) hu)
  · refine branchUnknownLE_not_branch (fun bs hs => ?_)
    simp only [stepOri] at hs
    cases hrel : relocation_target_for obj a with
    | some target =>
      rw [hrel] at hs
      exact StepResult.noConfusion hs
    | none =>
      rw [hrel] at hs
      exact StepResult.noConfusion hs

theorem stepOr_deg {v w : VM} (h : DegradedVM v w) (ins : Ins) :
    UnknownLE (stepOr v ins).1 (stepOr w ins).1 ∧
    BranchUnknownLE (stepOr v ins).2 (stepOr w ins).2 := by
  have hvw := unknownLE_of_degraded h
  constructor
  · simp only [stepOr]
    by_cases hsb : ins.field_rS = ins.field_rB
    · simp only [if_pos hsb]
      exact unknownLE_setGpr hvw _ (fun hu => deg_unknown (h.1 _) hu)
    · simp only [if_neg hsb]
      exact unknownLE_setGpr hvw _
        (fun hu => deg_unknown (orValue_deg (h.1 _) (h.1 _)) hu)
  · refine branchUnknownLE_not_branch (fun bs hs => ?_)
    simp only [stepOr] at hs
    by_cases hsb : ins.field_rS = ins.field_rB
    · rw [if_pos hsb] at hs
      exact StepResult.noConfusion hs
    · rw [if_neg hsb] at hs
      exact StepResult.noConfusion hs

theorem stepCmp_deg {v w : VM} (h : DegradedVM v w) (ins : Ins) :
    UnknownLE (stepCmp v ins).1 (stepCmp w ins).1 ∧
    BranchUnknownLE (stepCmp v ins).2 (stepCmp w ins).2 := by
  have hvw := unknownLE_of_degraded h
  constructor
  · simp only [stepCmp]
    by_cases hL : ins.field_L = 0
    · simp only [if_pos hL]
      intro j hj
      exact unknownLE_setGprValue (v := v.setCr ins.field_crfD _)
        (w := w.setCr ins.field_crfD _) (fun k hk => hvw k hk) _
        (fun hx => hx) j hj
    · simp only [if_neg hL]
      exact hvw
  · refine branchUnknownLE_not_branch (fun bs hs => ?_)
    simp only [stepCmp] at hs
    by_cases hL : ins.field_L = 0
    · rw [if_pos hL] at hs
      exact StepResult.noConfusion hs
    · rw [if_neg hL] at hs
      exact StepResult.noConfusion hs

theorem VM.setGpr_gpr (vm : VM) (i j : Fin 32) (g : Gpr) :
    (vm.setGpr i g).gpr j = if j = i then g else vm.gpr j := rfl

theorem loadStoreCore_gpr_ne (vm : VM) (obj : ObjInfo) (a : SectionAddress)
    (ins : Ins) {j : Fin 32} (hj : j ≠ ins.field_rA) :
    (loadStoreCore vm obj a ins).1.gpr j = vm.gpr j := by
  simp only [loadStoreCore]
  rcases hv : (vm.gpr ins.field_rA).value with _ | base | t | c | ⟨mn, mx, st⟩ | ⟨ad, mo⟩ <;>
    try dsimp only
  · split_ifs <;> simp [VM.setGpr_gpr, hj]
  · cases hs : section_address_for obj a (wadd base (toU32 ins.field_simm)) with
    | none => rfl
    | some t => split_ifs <;> simp [VM.setGpr_gpr, hj]
  · split_ifs <;> simp [VM.setGpr_gpr, hj]
  · split_ifs <;> simp [VM.setGpr_gpr, hj]
  · split_ifs <;> simp [VM.setGpr_gpr, hj]
  · split_ifs <;> simp [VM.setGpr_gpr, hj]

theorem loadStoreCore_snd (vm : VM) (obj : ObjInfo) (a : SectionAddress)
    (ins : Ins) :
    (loadStoreCore vm obj a ins).2 = .Continue ∨
    ∃ ad src sr, (loadStoreCore vm obj a ins).2 = .LoadStore ad src sr := by
  simp only [loadStoreCore]
  rcases hv : (vm.gpr ins.field_rA).value with _ | base | t | c | ⟨mn, mx, st⟩ | ⟨ad, mo⟩ <;>
    try dsimp only
  · split_ifs <;> exact Or.inl rfl
  · cases hs : section_address_for obj a (wadd base (toU32 ins.field_simm)) with
    | none => exact Or.inl rfl
    | some t => exact Or.inr ⟨_, _, _, rfl⟩
  · exact Or.inr ⟨_, _, _, rfl⟩
  · split_ifs <;> exact Or.inl rfl
  · split_ifs <;> exact Or.inl rfl
  · split_ifs <;> exact Or.inl rfl

theorem loadStoreCore_deg {v w : VM} (h : DegradedVM v w) (obj : ObjInfo)
    (a : SectionAddress) (ins : Ins) :
    UnknownLE (loadStoreCore v obj a ins).1 (loadStoreCore w obj a ins).1 := by
  have hvw := unknownLE_of_degraded h
  rcases h.1 ins.field_rA with he | hU
  · simp only [loadStoreCore]
    rw [he]
    rcases hw : (w.gpr ins.field_rA).value with _ | base | t | c | ⟨mn, mx, st⟩ | ⟨ad, mo⟩ <;>
      try dsimp only
    · split_ifs with hup
      · exact unknownLE_setGpr hvw _ (fun _ => rfl)
      · exact hvw
    · cases hs : section_address_for obj a (wadd base (toU32 ins.field_simm)) with
      | none => exact hvw
      | some t =>
        split_ifs with hup
        · exact unknownLE_setGpr hvw _ (fun hx => absurd hx (by simp [Gpr.set_lo]))
        · exact hvw
    · split_ifs with hup
      · exact unknownLE_setGpr hvw _ (fun hx => absurd hx (by simp [Gpr.set_lo]))
      · exact hvw
    · split_ifs with hup
      · exact unknownLE_setGpr hvw _ (fun _ => rfl)
      · exact hvw
    · split_ifs with hup
      · exact unknownLE_setGpr hvw _ (fun _ => rfl)
      · exact hvw
    · split_ifs with hup
      · exact unknownLE_setGpr hvw _ (fun _ => rfl)
      · exact hvw
  · intro j hj
    by_cases hjs : j = ins.field_rA
    · subst hjs
      simp only [loadStoreCore, hU]
      try dsimp only
      split_ifs with hup
      · simp [VM.setGpr_gpr, Gpr.set_direct]
      · exact hU
    · rw [loadStoreCore_gpr_ne v obj a ins hjs]
      rw [loadStoreCore_gpr_ne w obj a ins hjs] at hj
      exact hvw j hj

theorem stepLoadStore_deg {v w : VM} (h : DegradedVM v w) (obj : ObjInfo)
    (a : SectionAddress) (ins : Ins) :
    UnknownLE (stepLoadStore v obj a ins).1 (stepLoadStore w obj a ins).1 ∧
    BranchUnknownLE (stepLoadStore v obj a ins).2 (stepLoadStore w obj a ins).2 := by
  constructor
  · simp only [stepLoadStore]
    split_ifs with hload
    · exact unknownLE_setGpr (loadStoreCore_deg h obj a ins) _ (fun _ => rfl)
    · exact loadStoreCore_deg h obj a ins
  · refine branchUnknownLE_not_branch (fun bs hs => ?_)
    have hsnd : (stepLoadStore w obj a ins).2 = (loadStoreCore w obj a ins).2 := rfl
    rw [hsnd] at hs
    rcases loadStoreCore_snd w obj a ins with hc | ⟨ad, src, sr, hc⟩
    · rw [hc] at hs
      exact StepResult.noConfusion hs
    · rw [hc] at hs
      exact StepResult.noConfusion hs

theorem stepRlw_deg {v w : VM} (h : DegradedVM v w) (ins : Ins)
    (hop : ins.op = .Rlwinm ∨ ins.op = .Rlwnm) :
    UnknownLE (stepRlw v ins).1 (stepRlw w ins).1 ∧
    BranchUnknownLE (stepRlw v ins).2 (stepRlw w ins).2 := by
  have hvw := unknownLE_of_degraded h
  refine ⟨?_, branchUnknownLE_not_branch (fun bs hs => StepResult.noConfusion hs)⟩
  rcases hop with hop | hop
  · simp only [stepRlw, hop]
    exact unknownLE_setGpr hvw _
      (fun hu => absurd hu (rlwValue_ne_unknown _ _ _))
  · simp only [stepRlw, hop]
    rcases h.1 ins.field_rB with he | hu
    · rw [he]
      rcases hsw : (w.gpr ins.field_rB).value with _ | s | t | c | ⟨mn, mx, st⟩ | ⟨ad, mo⟩
      · exact unknownLE_setGpr hvw _ (fun hx => hx)
      · exact unknownLE_setGpr hvw _
          (fun hx => absurd hx (rlwValue_ne_unknown _ _ _))
      · exact unknownLE_setGpr hvw _ (fun hx => hx)
      · exact unknownLE_setGpr hvw _ (fun hx => hx)
      · exact unknownLE_setGpr hvw _ (fun hx => hx)
      · exact unknownLE_setGpr hvw _ (fun hx => hx)
    · rw [hu]
      rcases hsw : (w.gpr ins.field_rB).value with _ | s | t | c | ⟨mn, mx, st⟩ | ⟨ad, mo⟩ <;>
        exact unknownLE_setGpr hvw _ (fun _ => rfl)

theorem stepLwzx_deg {v w : VM} (h : DegradedVM v w) (obj : ObjInfo)
    (a : SectionAddress) (ins : Ins) :
    UnknownLE (stepLwzx v obj a ins).1 (stepLwzx w obj a ins).1 ∧
    BranchUnknownLE (stepLwzx v obj a ins).2 (stepLwzx w obj a ins).2 := by
  have hvw := unknownLE_of_degraded h
  refine ⟨?_, branchUnknownLE_not_branch (fun bs hs => StepResult.noConfusion hs)⟩
  simp only [stepLwzx]
  have haddr : (v.gpr ins.field_rA).address obj a =
      (w.gpr ins.field_rA).address obj a ∨
      (v.gpr ins.field_rA).address obj a = none := by
    rcases h.1 ins.field_rA with he | hu
    · exact Or.inl (Gpr.address_congr obj a he)
    · exact Or.inr (Gpr.address_unknown obj a hu)
  refine unknownLE_setGpr hvw _ (fun hu => ?_)
  have hwnone : (w.gpr ins.field_rA).address obj a = none := by
    rcases hl : (w.gpr ins.field_rA).address obj a with _ | t
    · rfl
    · rw [hl] at hu
      exact absurd hu (lwzxValue_some_ne t _)
  rcases haddr with he | hn
  · rw [he, hwnone]
    exact lwzxValue_none ((v.gpr ins.field_rB).value)
  · rw [hn]
    exact lwzxValue_none ((v.gpr ins.field_rB).value)

theorem stepMtspr_deg {v w : VM} (h : DegradedVM v w) (ins : Ins) :
    UnknownLE (stepMtspr v ins).1 (stepMtspr w ins).1 ∧
    BranchUnknownLE (stepMtspr v ins).2 (stepMtspr w ins).2 := by
  have hvw := unknownLE_of_degraded h
  constructor
  · simp only [stepMtspr]
    by_cases hspr : ins.field_spr = 9
    · simp only [if_pos hspr]
      exact hvw
    · simp only [if_neg hspr]
      exact hvw
  · refine branchUnknownLE_not_branch (fun bs hs => ?_)
    simp only [stepMtspr] at hs
    by_cases hspr : ins.field_spr = 9
    · rw [if_pos hspr] at hs
      exact StepResult.noConfusion hs
    · rw [if_neg hspr] at hs
      exact StepResult.noConfusion hs

theorem stepMfspr_deg {v w : VM} (h : DegradedVM v w) (ins : Ins) :
    UnknownLE (stepMfspr v ins).1 (stepMfspr w ins).1 ∧
    BranchUnknownLE (stepMfspr v ins).2 (stepMfspr w ins).2 := by
  have hvw := unknownLE_of_degraded h
  refine ⟨?_, branchUnknownLE_not_branch (fun bs hs => StepResult.noConfusion hs)⟩
  simp only [stepMfspr]
  refine unknownLE_setGpr hvw _ (fun hu => ?_)
  rw [h.2.2]
  exact hu

theorem stepDefault_deg {v w : VM} (h : DegradedVM v w) (ins : Ins) :
    UnknownLE (stepDefault v ins).1 (stepDefault w ins).1 ∧
    BranchUnknownLE (stepDefault v ins).2 (stepDefault w ins).2 := by
  refine ⟨?_, branchUnknownLE_not_branch (fun bs hs => StepResult.noConfusion hs)⟩
  simp only [stepDefault]
  exact foldl_unknown_deg ins.defs (unknownLE_of_degraded h)

theorem stepBranch_deg {v w : VM} (h : DegradedVM v w) (obj : ObjInfo)
    (a : SectionAddress) (ins : Ins) :
    UnknownLE (stepBranch v obj a ins).1 (stepBranch w obj a ins).1 ∧
    BranchUnknownLE (stepBranch v obj a ins).2 (stepBranch w obj a ins).2 := by
  have hvw := unknownLE_of_degraded h
  simp only [stepBranch]
  by_cases hhack : ins.op = Opcode.B ∧ ins.field_LK ∧ ins.field_AA
  · simp only [if_pos hhack]
    exact ⟨hvw, branchUnknownLE_not_branch (fun bs hs => StepResult.noConfusion hs)⟩
  · simp only [if_neg hhack]
    by_cases hLK : ins.field_LK = true
    · simp only [if_pos hLK]
      refine ⟨hvw, ?_⟩
      intro bs bs' hs hs'
      injection hs with hs
      injection hs' with hs'
      subst hs
      subst hs'
      refine ⟨rfl, ?_⟩
      intro k hk hk'
      rcases k with _ | _ | k
      · exact clone_for_return_deg h
      · exact clone_for_link_deg h
      · simp only [List.length_cons, List.length_nil] at hk
        omega
    · simp only [if_neg hLK]
      by_cases hBO : ins.op = Opcode.B ∨ ins.field_BO &&& 20 = 20
      · simp only [if_pos hBO]
        exact ⟨hvw, branchUnknownLE_not_branch (fun bs hs => StepResult.noConfusion hs)⟩
      · simp only [if_neg hBO]
        refine ⟨hvw, ?_⟩
        have hcr : v.cr = w.cr := h.2.1
        rw [hcr]
        by_cases hc1 : ins.field_BO &&& 30 = 4
        · simp only [if_pos hc1]
          intro bs bs' hs hs'
          injection hs with hs
          injection hs' with hs'
          subst hs
          subst hs'
          refine ⟨rfl, ?_⟩
          intro k hk hk'
          rcases k with _ | _ | k
          · exact set_comparison_result_deg h.1 _ _
          · exact set_comparison_result_deg h.1 _ _
          · simp only [List.length_cons, List.length_nil] at hk
            omega
        · simp only [if_neg hc1]
          by_cases hc2 : ins.field_BO &&& 30 = 12
          · simp only [if_pos hc2]
            intro bs bs' hs hs'
            injection hs with hs
            injection hs' with hs'
            subst hs
            subst hs'
            refine ⟨rfl, ?_⟩
            intro k hk hk'
            rcases k with _ | _ | k
            · exact set_comparison_result_deg h.1 _ _
            · exact set_comparison_result_deg h.1 _ _
            · simp only [List.length_cons, List.length_nil] at hk
              omega
          · simp only [if_neg hc2]
            intro bs bs' hs hs'
            injection hs with hs
            injection hs' with hs'
            subst hs
            subst hs'
            refine ⟨rfl, ?_⟩
            intro k hk hk'
            rcases k with _ | _ | k
            · exact hvw
            · exact hvw
            · simp only [List.length_cons, List.length_nil] at hk
              omega

theorem stepRest_deg {v w : VM} (h : DegradedVM v w) (obj : ObjInfo)
    (a : SectionAddress) (ins : Ins) :
    UnknownLE (stepRest v obj a ins).1 (stepRest w obj a ins).1 ∧
    BranchUnknownLE (stepRest v obj a ins).2 (stepRest w obj a ins).2 := by
  simp only [stepRest]
  split_ifs with hls
  · exact stepLoadStore_deg h obj a ins
  · exact stepDefault_deg h ins

theorem step_deg {v w : VM} (h : DegradedVM v w) (obj : ObjInfo)
    (a : SectionAddress) (ins : Ins) :
    UnknownLE (v.step obj a ins).1 (w.step obj a ins).1 ∧
    BranchUnknownLE (v.step obj a ins).2 (w.step obj a ins).2 := by
  have hvw := unknownLE_of_degraded h
  cases hop : ins.op
  case Illegal =>
    simp only [VM.step, hop]
    exact ⟨hvw, branchUnknownLE_not_branch (fun bs hs => StepResult.noConfusion hs)⟩
  case Add =>
    simp only [VM.step, hop]
    exact stepAdd_deg h ins
  case Addis =>
    simp only [VM.step, hop]
    exact stepAddis_deg h obj a ins
  case Addi =>
    simp only [VM.step, hop]
    exact stepAddi_deg h obj a ins
  case Addic =>
    simp only [VM.step, hop]
    exact stepAddi_deg h obj a ins
  case Addic_ =>
    simp only [VM.step, hop]
    exact stepAddi_deg h obj a ins
  case Ori =>
    simp only [VM.step, hop]
    exact stepOri_deg h obj a ins
  case Or =>
    simp only [VM.step, hop]
    exact stepOr_deg h ins
  case Cmp =>
    simp only [VM.step, hop]
    exact stepCmp_deg h ins
  case Cmpi =>
    simp only [VM.step, hop]
    exact stepCmp_deg h ins
  case Cmpl =>
    simp only [VM.step, hop]
    exact stepCmp_deg h ins
  case Cmpli =>
    simp only [VM.step, hop]
    exact stepCmp_deg h ins
  case Rlwinm =>
    simp only [VM.step, hop]
    exact stepRlw_deg h ins (Or.inl hop)
  case Rlwnm =>
    simp only [VM.step, hop]
    exact stepRlw_deg h ins (Or.inr hop)
  case B =>
    simp only [VM.step, hop]
    exact stepBranch_deg h obj a ins
  case Bc =>
    simp only [VM.step, hop]
    exact stepBranch_deg h obj a ins
  case Bcctr =>
    simp only [VM.step, hop]
    exact stepBranch_deg h obj a ins
  case Bclr =>
    simp only [VM.step, hop]
    exact stepBranch_deg h obj a ins
  case Lwzx =>
    simp only [VM.step, hop]
    exact stepLwzx_deg h obj a ins
  case Mtspr =>
    simp only [VM.step, hop]
    exact stepMtspr_deg h ins
  case Mfspr =>
    simp only [VM.step, hop]
    exact stepMfspr_deg h ins
  case Rfi =>
    simp only [VM.step, hop]
    exact ⟨hvw, branchUnknownLE_not_branch (fun bs hs => StepResult.noConfusion hs)⟩
  all_goals simp only [VM.step, hop]
  all_goals exact stepRest_deg h obj a ins

/-- C8: Unknown-monotonicity. Replacing any GPR's value with `Unknown`
before `step` never produces a more precise result: every resulting GPR
(of the mutated VM, and of each branch-fork VM) that is `Unknown` under
the original input is still `Unknown` under the degraded input. -/
theorem c8_unknown_monotonic (w : VM) (obj : ObjInfo) (a : SectionAddress)
    (ins : Ins) (r : Fin 32) :
    UnknownLE ((w.setGprValue r .Unknown).step obj a ins).1 (w.step obj a ins).1 ∧
    BranchUnknownLE ((w.setGprValue r .Unknown).step obj a ins).2
      (w.step obj a ins).2 :=
  step_deg (degraded_setGprValue_unknown w r) obj a ins

/-- Witness for C8: an unmodelled opcode defining `r3`, on a fresh VM
with `r5` degraded. -/
theorem c8_witness :
    ((VM.new.step hostObj ⟨0, 0⟩ c8ins).1.gpr 3).value = .Unknown ∧
    (((VM.new.setGprValue 5 .Unknown).step hostObj ⟨0, 0⟩ c8ins).1.gpr 3).value =
      .Unknown :=
  ⟨by decide, (c8_unknown_monotonic VM.new hostObj ⟨0, 0⟩ c8ins 5).1 3 (by decide)⟩
